import Mathlib

set_option linter.unusedVariables false

/-!
Verification development for tools/verify_map.py, the Watcom linker
map-file verifier of the 3Com packet driver.  The Python program is
embedded shallowly: its regex extraction passes become character-list
matchers, its dictionaries become insertion-ordered association lists,
its six verification rules become pure state transformers over `VState`,
and `main` becomes a pure function from the argument vector and the
(optional) map-file text to an exit code and a final state.
-/

-- ## Character classes of the regular expressions used by the parser

def isWordChar (c : Char) : Bool := c.isAlpha || c.isDigit || c = '_'

def isHexChar (c : Char) : Bool :=
  c.isDigit || ('a' ≤ c && c ≤ 'f') || ('A' ≤ c && c ≤ 'F')

-- Whitespace characters other than the line break.
def isSpaceChar (c : Char) : Bool :=
  c = ' ' || c = '\t' || c = '\r' || c = '\x0b' || c = '\x0c'

-- The full regex class \s: every whitespace run in the patterns may
-- match the line break as well.
def isPySpace (c : Char) : Bool := isSpaceChar c || c = '\n'

def hexDigitVal (c : Char) : Nat :=
  if c.isDigit then c.toNat - '0'.toNat
  else if 'a' ≤ c && c ≤ 'f' then c.toNat - 'a'.toNat + 10
  else c.toNat - 'A'.toNat + 10

-- int(tok, 16)
def hexVal (cs : List Char) : Nat := cs.foldl (fun a c => a * 16 + hexDigitVal c) 0

/-- Maximal munch of one-or-more characters of a class (regex `X+`).
All adjacent character classes in the embedded patterns are disjoint, so
maximal munch coincides with the backtracking behaviour of `re`. -/
def munch1 (p : Char → Bool) (cs : List Char) : Option (List Char × List Char) :=
  match cs.span p with
  | ([], _) => none
  | (tok, rest) => some (tok, rest)

-- str.split semantics on the line separator: "" yields one empty line.
def splitLines (cs : List Char) : List (List Char) :=
  cs.foldr
    (fun c acc =>
      if c = '\n' then [] :: acc
      else
        match acc with
        | [] => [[c]]
        | l :: t => (c :: l) :: t)
    [[]]

-- ## Data model

structure SegInfo where
  seg_class : String
  group : String
  address : String
  size : Nat
  deriving DecidableEq

structure SymInfo where
  segment : String
  offset : String
  full_addr : String
  deriving DecidableEq

-- Python dict as an insertion-ordered association list: assignment to an
-- existing key replaces the value in place, a new key is appended.
def lookupTab {α : Type} : List (String × α) → String → Option α
  | [], _ => none
  | p :: t, k => if p.1 = k then some p.2 else lookupTab t k

def insertReplace {α : Type} : List (String × α) → String → α → List (String × α)
  | [], k, v => [(k, v)]
  | p :: t, k, v => if p.1 = k then (k, v) :: t else p :: insertReplace t k v

-- ## Thresholds and rule catalogs (module-level constants of the script)

def DGROUP_MAX_SIZE : Nat := 0x10000

def DGROUP_RELEASE_MAX : Nat := 0xE800
def DGROUP_RELEASE_WARN : Nat := 0xE000

def DGROUP_PRODUCTION_MAX : Nat := 0xE000
def DGROUP_PRODUCTION_WARN : Nat := 0xD800

def DGROUP_DEBUG_MAX : Nat := 0x10000
def DGROUP_DEBUG_WARN : Nat := 0xF200

def REQUIRED_SYMBOLS : List (String × List String) :=
  [("packet_api", ["packet_driver_isr", "_packet_driver_isr", "packet_api_entry"]),
   ("multiplex_api", ["multiplex_handler_", "int2f_handler", "multiplex_handler", "_int2f_isr"]),
   ("pci_shim", ["_pci_shim_isr", "pci_shim_handler", "pci_shim_handler_"]),
   ("nic_irq", ["nic_irq_handler", "_nic_isr", "hardware_handle_3c509b_irq", "hardware_handle_3c515_irq"]),
   ("lifecycle", ["install_packet_api_vector", "install_interrupts", "initialize_tsr_defense"])]

def REQUIRED_ROOT_SEGMENTS : List (String × String) :=
  [("_TEXT", "Main ASM modules (pktapi, nicirq, tsrcom, pciisr)"),
   ("rt_stubs_TEXT", "Consolidated runtime stubs (replaces 15 *_rt modules)")]

def OPTIONAL_SYMBOLS : List String :=
  ["g_3c509b_ops", "g_3c515_ops", "_3c509b_ops",
   "_3c509b_send_packet_", "_3c509b_receive_packet_",
   "_3c515_send_packet_", "_3c515_receive_packet_",
   "log_info_", "log_error_", "log_warning_", "log_debug_",
   "nic_3c509_handler", "nic_3c515_handler",
   "pcmcia_irq_isr", "pcmcia_isr_install", "pcmcia_isr_uninstall",
   "_set_chain_vector", "chain_to_bios",
   "queue_deferred_work", "deferred_work_queue_process",
   "validate_interrupt_vectors", "safe_port_read"]

def FORBIDDEN_IN_OVERLAY : List String :=
  ["rt_stubs.obj", "3cvortex.obj", "3cboom.obj"]

-- ## Records appended to errors / warnings (payloads of the f-strings)

inductive VRecord where
  | mapFileNotFound : VRecord
  | dgroupSizeUnparsed : VRecord
  | dgroupExceedsLimit (size limit : Nat) (mode : String) : VRecord
  | dgroupWarnZone (size headroom : Nat) (mode : String) : VRecord
  | requiredNoSymbolFound (grp : String) (syms : List String) : VRecord
  | requiredFoundInOverlay (grp sym : String) : VRecord
  | requiredSegNotFound (seg desc : String) : VRecord
  | requiredSegNotRoot (seg desc grp cls : String) : VRecord
  | optionalInOverlay (sym : String) : VRecord
  | forbiddenObjInOverlay (obj : String) : VRecord
  | overlayFoldedIntoDgroup (seg : String) : VRecord
  deriving DecidableEq

-- ## Verifier state (class MapVerifier)

structure VState where
  build_mode : String
  dgroup_max : Nat
  dgroup_warn : Nat
  errors : List VRecord
  warnings : List VRecord
  info : List VRecord
  dgroup_size : Nat
  segments : List (String × SegInfo)
  symbols : List (String × SymInfo)
  overlay_segments : List String
  deriving DecidableEq

-- The if/elif/else threshold selection in MapVerifier.__init__.
def modeThresholds (mode : String) : Nat × Nat :=
  if mode = "production" then (DGROUP_PRODUCTION_MAX, DGROUP_PRODUCTION_WARN)
  else if mode = "release" then (DGROUP_RELEASE_MAX, DGROUP_RELEASE_WARN)
  else (DGROUP_DEBUG_MAX, DGROUP_DEBUG_WARN)

def initState (mode : String) : VState :=
  { build_mode := mode
    dgroup_max := (modeThresholds mode).1
    dgroup_warn := (modeThresholds mode).2
    errors := []
    warnings := []
    info := []
    dgroup_size := 0
    segments := []
    symbols := []
    overlay_segments := [] }

-- ## MapParser

def SEGMENT_CLASSES : List String :=
  ["CODE", "DATA", "BSS", "STACK", "BEGDATA", "FAR_DATA", "EMU", "CONST", "_OVLCODE"]

/-- Prefix match of the segment-table pattern of `_parse_all_segments`
at one position of the text: name, class keyword, group, `addr:off`,
size, separated by `\s+`.  re.MULTILINE anchors the match start at a
line start, but `\s+` matches the full class \s including the line
break, so a match may span lines.  Returns the parsed entry together
with the suffix after the match end. -/
def segMatch (cs : List Char) : Option ((String × SegInfo) × List Char) :=
  (munch1 isWordChar cs).bind fun (name, r1) =>
  (munch1 isPySpace r1).bind fun (_, r2) =>
  (munch1 isWordChar r2).bind fun (cls, r3) =>
  if SEGMENT_CLASSES.contains (String.mk cls) then
    (munch1 isPySpace r3).bind fun (_, r4) =>
    (munch1 isWordChar r4).bind fun (grp, r5) =>
    (munch1 isPySpace r5).bind fun (_, r6) =>
    (munch1 isHexChar r6).bind fun (a1, r7) =>
    (match r7 with | ':' :: r8 => some r8 | _ => none).bind fun r8 =>
    (munch1 isHexChar r8).bind fun (a2, r9) =>
    (munch1 isPySpace r9).bind fun (_, r10) =>
    (munch1 isHexChar r10).bind fun (sz, rest) =>
    some ((String.mk name,
      { seg_class := String.mk cls
        group := String.mk grp
        address := String.mk (a1 ++ ':' :: a2)
        size := hexVal sz }), rest)
  else none

/-- Prefix match of the symbol-table pattern of `_parse_symbol_table`:
`segment:offset` with an optional trailing marker in `*+` (stripped,
not recorded), `\s+` (which may span the line break), then the symbol
name as a maximal non-space run. -/
def symMatch (cs : List Char) : Option ((String × SymInfo) × List Char) :=
  (munch1 isHexChar cs).bind fun (seg, r1) =>
  (match r1 with | ':' :: r2 => some r2 | _ => none).bind fun r2 =>
  (munch1 isHexChar r2).bind fun (off, r3) =>
  (munch1 isPySpace
      (match r3 with
       | c :: t => if c = '*' || c = '+' then t else c :: t
       | [] => [])).bind fun (_, r5) =>
  (munch1 (fun c => !isPySpace c) r5).bind fun (nm, rest) =>
  some ((String.mk nm,
    { segment := String.mk seg
      offset := String.mk off
      full_addr := String.mk (seg ++ ':' :: off) }), rest)

/-- re.finditer over a line-anchored pattern: a match is attempted only
at line starts; a successful match resumes the scan at its end, so
matches are non-overlapping and a match spanning a line break
suppresses the following line's anchored match; a failed attempt
advances one character.  A match never ends in a line break (its last
character is never whitespace), so the position after a match is never
a line start.  The fuel starts at length + 1: every step consumes at
least one character of the text, so the fuel never runs out before the
text does. -/
def scanMatches {α : Type} (m : List Char → Option (α × List Char)) :
    Nat → List Char → Bool → List α
  | 0, _, _ => []
  | fuel + 1, cs, atLineStart =>
    match (if atLineStart then m cs else none) with
    | some (v, rest) => v :: scanMatches m fuel rest false
    | none =>
      match cs with
      | [] => []
      | c :: t => scanMatches m fuel t (c = '\n')

def segMatchSeq (cs : List Char) : List (String × SegInfo) :=
  scanMatches segMatch (cs.length + 1) cs true

def symMatchSeq (cs : List Char) : List (String × SymInfo) :=
  scanMatches symMatch (cs.length + 1) cs true

-- the dict-building loop over the matches, in match order
def tableOfMatches {α : Type} (ms : List (String × α)) : List (String × α) :=
  ms.foldl (fun m kv => insertReplace m kv.1 kv.2) []

-- A line of the text that matches when presented to the pattern in
-- isolation (the line-level parseability notion used by the spec).
def segLineParse (line : List Char) : Option (String × SegInfo) :=
  (segMatch line).map Prod.fst

def symLineParse (line : List Char) : Option (String × SymInfo) :=
  (symMatch line).map Prod.fst

/-- The search of `_parse_dgroup_size`:
first occurrence anywhere in the text of
`DGROUP` whitespace hex`:`hex whitespace hex, keeping the final hex run. -/
def matchDgroupAt (cs : List Char) : Option Nat :=
  (if ("DGROUP".data).isPrefixOf cs then some (cs.drop 6) else none).bind fun r0 =>
  (munch1 isPySpace r0).bind fun (_, r1) =>
  (munch1 isHexChar r1).bind fun (_, r2) =>
  (match r2 with | ':' :: r3 => some r3 | _ => none).bind fun r3 =>
  (munch1 isHexChar r3).bind fun (_, r4) =>
  (munch1 isPySpace r4).bind fun (_, r5) =>
  (munch1 isHexChar r5).bind fun (sz, _) =>
  some (hexVal sz)

def scanDgroupSize : List Char → Option Nat
  | [] => none
  | c :: t =>
    match matchDgroupAt (c :: t) with
    | some v => some v
    | none => scanDgroupSize t

/-- One position against the marker pattern of `_identify_overlay_segments`:
`Overlay section` digits `address` hex`:`, collecting the uppercased hex. -/
def matchOverlayAt (cs : List Char) : Option String :=
  (if ("Overlay section ".data).isPrefixOf cs then some (cs.drop 16) else none).bind fun r0 =>
  (munch1 Char.isDigit r0).bind fun (_, r1) =>
  (if (" address ".data).isPrefixOf r1 then some (r1.drop 9) else none).bind fun r2 =>
  (munch1 isHexChar r2).bind fun (a, r3) =>
  (match r3 with | ':' :: _ => some () | _ => none).bind fun _ =>
  some (String.mk (a.map Char.toUpper))

-- A match span can never contain the start of another match, so scanning
-- every position collects the same address set as re.finditer.
def identifyOverlayAddrs : List Char → List String
  | [] => []
  | c :: t =>
    match matchOverlayAt (c :: t) with
    | some a => a :: identifyOverlayAddrs t
    | none => identifyOverlayAddrs t

-- MapVerifier.parse on readable text (the content attribute itself is
-- only consumed by the extraction passes and is not kept in the state).
def parseText (text : String) (s : VState) : VState :=
  { s with
    dgroup_size := (scanDgroupSize text.data).getD s.dgroup_size
    segments := tableOfMatches (segMatchSeq text.data)
    symbols := tableOfMatches (symMatchSeq text.data)
    overlay_segments := identifyOverlayAddrs text.data }

-- ## RootClassifier

def strUpper (s : String) : String := String.mk (s.data.map Char.toUpper)

-- _is_symbol_in_overlay
def symbolInOverlay (ovl : List String) (si : SymInfo) : Bool :=
  ovl.contains (strUpper si.segment)

-- _is_segment_root
def isSegmentRoot (segs : List (String × SegInfo)) (name : String) : Option Bool :=
  match lookupTab segs name with
  | none => none
  | some i => some (i.group == "AUTO" && i.seg_class == "CODE")

-- ## RuleEngine

-- verify_dgroup_size
def verify_dgroup_size (s : VState) : VState :=
  if s.dgroup_size = 0 then
    { s with warnings := s.warnings ++ [.dgroupSizeUnparsed] }
  else if s.dgroup_size ≥ s.dgroup_max then
    { s with errors := s.errors ++ [.dgroupExceedsLimit s.dgroup_size s.dgroup_max s.build_mode] }
  else if s.dgroup_size ≥ s.dgroup_warn then
    { s with warnings := s.warnings ++
        [.dgroupWarnZone s.dgroup_size (DGROUP_MAX_SIZE - s.dgroup_size) s.build_mode] }
  else s

/-- The inner alias loop of `verify_required_symbols`, carrying the
`found_any` and `found_symbol` accumulators; the loop body breaks only
when a present alias is outside overlay (the `found_in_root` case). -/
def scanRequiredGroup (syms : List (String × SymInfo)) (ovl : List String) :
    List String → Bool → Option String → Bool × Bool × Option String
  | [], found_any, found_symbol => (found_any, false, found_symbol)
  | n :: rest, found_any, found_symbol =>
    match lookupTab syms n with
    | none => scanRequiredGroup syms ovl rest found_any found_symbol
    | some i =>
      if symbolInOverlay ovl i then scanRequiredGroup syms ovl rest true (some n)
      else (true, true, some n)

def checkRequiredGroup (syms : List (String × SymInfo)) (ovl : List String)
    (gname : String) (names : List String) : List VRecord :=
  match scanRequiredGroup syms ovl names false none with
  | (false, _, _) => [.requiredNoSymbolFound gname names]
  | (true, false, fs) => [.requiredFoundInOverlay gname (fs.getD "")]
  | (true, true, _) => []

def verify_required_symbols (s : VState) : VState :=
  REQUIRED_SYMBOLS.foldl
    (fun st p =>
      { st with errors := st.errors ++
          checkRequiredGroup st.symbols st.overlay_segments p.1 p.2 })
    s

-- verify_required_segments
def verify_required_segments (s : VState) : VState :=
  REQUIRED_ROOT_SEGMENTS.foldl
    (fun st p =>
      match isSegmentRoot st.segments p.1 with
      | none => { st with warnings := st.warnings ++ [.requiredSegNotFound p.1 p.2] }
      | some true => st
      | some false =>
        match lookupTab st.segments p.1 with
        | some i =>
          { st with errors := st.errors ++ [.requiredSegNotRoot p.1 p.2 i.group i.seg_class] }
        | none => st)
    s

-- symbol.rstrip of the separator character
def rstripUnderscore (s : String) : String :=
  String.mk ((s.data.reverse.dropWhile (fun c => c = '_')).reverse)

def optionalVariants (sym : String) : List String :=
  [sym, rstripUnderscore sym, sym ++ "_"]

/-- The inner variant loop of `verify_optional_symbols`: the first variant
present in the symbol table decides, and the loop breaks there. -/
def checkOptionalVariants (syms : List (String × SymInfo)) (ovl : List String) :
    List String → List VRecord
  | [] => []
  | v :: rest =>
    match lookupTab syms v with
    | none => checkOptionalVariants syms ovl rest
    | some i => if symbolInOverlay ovl i then [.optionalInOverlay v] else []

def checkOptional (syms : List (String × SymInfo)) (ovl : List String)
    (sym : String) : List VRecord :=
  checkOptionalVariants syms ovl (optionalVariants sym)

def verify_optional_symbols (s : VState) : VState :=
  OPTIONAL_SYMBOLS.foldl
    (fun st sym =>
      { st with errors := st.errors ++
          checkOptional st.symbols st.overlay_segments sym })
    s

-- obj.replace of the module suffix with the empty string (left-to-right,
-- non-overlapping, fuel bounded by the input length)
def removeDotObjAux : Nat → List Char → List Char
  | 0, cs => cs
  | _ + 1, [] => []
  | fuel + 1, c :: t =>
    if ('.' :: 'o' :: 'b' :: 'j' :: []).isPrefixOf (c :: t) then
      removeDotObjAux fuel (t.drop 3)
    else c :: removeDotObjAux fuel t

def objSegName (obj : String) : String :=
  String.mk (removeDotObjAux obj.data.length obj.data) ++ "_TEXT"

-- verify_forbidden_in_overlay; the absent-segment branch only prints an
-- informational line and records nothing.
def verify_forbidden_in_overlay (s : VState) : VState :=
  FORBIDDEN_IN_OVERLAY.foldl
    (fun st obj =>
      match lookupTab st.segments (objSegName obj) with
      | some i =>
        if i.seg_class == "_OVLCODE" then
          { st with errors := st.errors ++ [.forbiddenObjInOverlay obj] }
        else st
      | none => st)
    s

-- the `in` substring test of verify_dgroup_folding
def containsSub (needle : List Char) : List Char → Bool
  | [] => needle.isPrefixOf []
  | c :: t => needle.isPrefixOf (c :: t) || containsSub needle t

-- verify_dgroup_folding; the sorted composition listing is only printed.
def verify_dgroup_folding (s : VState) : VState :=
  (s.segments.filter (fun p => p.2.group == "DGROUP")).foldl
    (fun st p =>
      if containsSub "OVL_".data p.1.data || containsSub "INIT_".data p.1.data then
        { st with errors := st.errors ++ [.overlayFoldedIntoDgroup p.1] }
      else st)
    s

-- ## ReportEngine / main

def runRules (s : VState) : VState :=
  verify_dgroup_folding (verify_forbidden_in_overlay (verify_optional_symbols
    (verify_required_segments (verify_required_symbols (verify_dgroup_size s)))))

-- the mode-flag scan of main
def buildModeOf (argv : List String) : String :=
  if argv.contains "--production" then "production"
  else if argv.contains "--release" then "release"
  else if argv.contains "--debug" then "debug"
  else "debug"

/-- main: the argument vector (argv[0] is the script name) and the map
file, `none` when the file cannot be read.  Returns the process exit
code and, when a verifier was constructed and parsing ran, its state. -/
def mainRun (argv : List String) (mapText : Option String) : Nat × Option VState :=
  if argv.length < 2 then (1, none)
  else
    let s0 := initState (buildModeOf argv)
    match mapText with
    | none => (1, some { s0 with errors := s0.errors ++ [.mapFileNotFound] })
    | some text =>
      let s1 := runRules (parseText text s0)
      (if s1.errors.isEmpty then 0 else 1, some s1)

-- ## Helper lemmas

theorem modeThresholds_bounds (m : String) :
    0xD800 ≤ (modeThresholds m).2 ∧ (modeThresholds m).2 ≤ (modeThresholds m).1 ∧
      (modeThresholds m).1 ≤ 0x10000 := by
  by_cases h1 : m = "production"
  · subst h1; decide
  · by_cases h2 : m = "release"
    · subst h2; decide
    · unfold modeThresholds
      rw [if_neg h1, if_neg h2]
      decide

-- ## C6

/-- C6: for every build mode string (hence in particular debug, release,
production and the default, which reuses the debug thresholds), the
selected thresholds satisfy warnSize ≤ maxSize ≤ 0x10000, and
`initState` installs exactly these thresholds. -/
theorem spec_c6_holds : ∀ mode : String,
    (modeThresholds mode).2 ≤ (modeThresholds mode).1 ∧
    (modeThresholds mode).1 ≤ 0x10000 ∧
    (initState mode).dgroup_warn = (modeThresholds mode).2 ∧
    (initState mode).dgroup_max = (modeThresholds mode).1 ∧
    DGROUP_MAX_SIZE = 0x10000 := by
  intro mode
  obtain ⟨h1, h2, h3⟩ := modeThresholds_bounds mode
  exact ⟨h2, h3, rfl, rfl, rfl⟩

-- ## C10

/-- C10: build-mode selection precedence of `main`: the production flag
anywhere in the arguments wins; otherwise the release flag wins over the
debug flag; with no mode flag the mode is debug. -/
theorem spec_c10_holds : ∀ argv : List String,
    (argv.contains "--production" = true → buildModeOf argv = "production") ∧
    (argv.contains "--production" = false → argv.contains "--release" = true →
      buildModeOf argv = "release") ∧
    (argv.contains "--production" = false → argv.contains "--release" = false →
      buildModeOf argv = "debug") := by
  intro argv
  refine ⟨fun h1 => ?_, fun h1 h2 => ?_, fun h1 h2 => ?_⟩
  · unfold buildModeOf
    rw [if_pos h1]
  · unfold buildModeOf
    rw [if_neg (by simpa using h1), if_pos h2]
  · unfold buildModeOf
    rw [if_neg (by simpa using h1), if_neg (by simpa using h2)]
    by_cases h3 : argv.contains "--debug" = true
    · rw [if_pos h3]
    · rw [if_neg h3]

theorem spec_c10_witness :
    buildModeOf ["verify_map.py", "map", "--debug", "--release", "--production"] = "production" ∧
    buildModeOf ["verify_map.py", "map", "--debug", "--release"] = "release" ∧
    buildModeOf ["verify_map.py", "map"] = "debug" :=
  ⟨(spec_c10_holds ["verify_map.py", "map", "--debug", "--release", "--production"]).1 (by decide),
   (spec_c10_holds ["verify_map.py", "map", "--debug", "--release"]).2.1 (by decide) (by decide),
   (spec_c10_holds ["verify_map.py", "map"]).2.2 (by decide) (by decide)⟩

-- ## C4

/-- C4: `segmentIsRoot` is the tri-state two-field predicate: `none` for
a segment name absent from the table; for a present segment, `some true`
exactly when its group is the resident group label AUTO and its class is
CODE, `some false` for every other group/class pair — in particular a
DGROUP/CODE segment classifies as non-root. -/
theorem spec_c4_holds : ∀ (segs : List (String × SegInfo)) (name : String),
    (lookupTab segs name = none → isSegmentRoot segs name = none) ∧
    (∀ i, lookupTab segs name = some i →
      (isSegmentRoot segs name = some true ↔ (i.group = "AUTO" ∧ i.seg_class = "CODE")) ∧
      (¬(i.group = "AUTO" ∧ i.seg_class = "CODE") → isSegmentRoot segs name = some false) ∧
      (i.group = "DGROUP" → i.seg_class = "CODE" → isSegmentRoot segs name = some false)) := by
  intro segs name
  constructor
  · intro h
    simp [isSegmentRoot, h]
  · intro i h
    refine ⟨?_, fun hn => ?_, fun hg hc => ?_⟩
    · simp [isSegmentRoot, h]
    · simp only [isSegmentRoot, h]
      rcases Decidable.not_and_iff_or_not.mp hn with hg | hc
      · simp [hg]
      · simp [hc]
    · simp [isSegmentRoot, h, hg, hc]

theorem spec_c4_witness :
    isSegmentRoot [("VSEG", ⟨"CODE", "DGROUP", "0001:0000", 16⟩)] "VSEG" = some false ∧
    isSegmentRoot [("VSEG", ⟨"CODE", "DGROUP", "0001:0000", 16⟩)] "OTHER" = none ∧
    isSegmentRoot [("VSEG", ⟨"CODE", "AUTO", "0001:0000", 16⟩)] "VSEG" = some true :=
  ⟨((spec_c4_holds [("VSEG", ⟨"CODE", "DGROUP", "0001:0000", 16⟩)] "VSEG").2
      ⟨"CODE", "DGROUP", "0001:0000", 16⟩ (by decide)).2.2 rfl rfl,
   (spec_c4_holds [("VSEG", ⟨"CODE", "DGROUP", "0001:0000", 16⟩)] "OTHER").1 (by decide),
   ((spec_c4_holds [("VSEG", ⟨"CODE", "AUTO", "0001:0000", 16⟩)] "VSEG").2
      ⟨"CODE", "AUTO", "0001:0000", 16⟩ (by decide)).1.mpr ⟨rfl, rfl⟩⟩

-- ## C5

/-- C5: the verifier is deterministic: any two runs over the same map
text and the same argument vector produce the same exit code, error list
and warning list. -/
theorem spec_c5_holds : ∀ (argv : List String) (mapText : Option String)
    (r1 r2 : Nat × Option VState),
    r1 = mainRun argv mapText → r2 = mainRun argv mapText →
    r1.1 = r2.1 ∧ r1.2.map VState.errors = r2.2.map VState.errors ∧
      r1.2.map VState.warnings = r2.2.map VState.warnings := by
  intro argv mapText r1 r2 h1 h2
  subst h1; subst h2
  exact ⟨rfl, rfl, rfl⟩

theorem spec_c5_witness :
    (mainRun ["verify_map.py", "build/3cpd.map"] (some "")).1 =
      (mainRun ["verify_map.py", "build/3cpd.map"] (some "")).1 ∧
    (mainRun ["verify_map.py", "build/3cpd.map"] (some "")).2.map VState.errors =
      (mainRun ["verify_map.py", "build/3cpd.map"] (some "")).2.map VState.errors ∧
    (mainRun ["verify_map.py", "build/3cpd.map"] (some "")).2.map VState.warnings =
      (mainRun ["verify_map.py", "build/3cpd.map"] (some "")).2.map VState.warnings :=
  spec_c5_holds ["verify_map.py", "build/3cpd.map"] (some "") _ _ rfl rfl

-- ## C2

/-- C2: the resident-data-group size rule, under the active mode
thresholds: size 0 gives exactly one warning and no error; size ≥ max
gives exactly one critical error and no size warning; warn ≤ size < max
gives exactly one warning and no error; otherwise no size record. -/
theorem spec_c2_holds : ∀ s : VState,
    s.dgroup_max = (modeThresholds s.build_mode).1 →
    s.dgroup_warn = (modeThresholds s.build_mode).2 →
    (s.dgroup_size = 0 →
      verify_dgroup_size s = { s with warnings := s.warnings ++ [.dgroupSizeUnparsed] }) ∧
    (s.dgroup_size ≥ s.dgroup_max →
      verify_dgroup_size s = { s with errors := s.errors ++
        [.dgroupExceedsLimit s.dgroup_size s.dgroup_max s.build_mode] }) ∧
    (s.dgroup_warn ≤ s.dgroup_size ∧ s.dgroup_size < s.dgroup_max →
      verify_dgroup_size s = { s with warnings := s.warnings ++
        [.dgroupWarnZone s.dgroup_size (DGROUP_MAX_SIZE - s.dgroup_size) s.build_mode] }) ∧
    (s.dgroup_size ≠ 0 ∧ s.dgroup_size < s.dgroup_warn → verify_dgroup_size s = s) := by
  intro s hmax hwarn
  obtain ⟨hw0, hwm, _⟩ := modeThresholds_bounds s.build_mode
  have hwpos : 0 < s.dgroup_warn := by omega
  refine ⟨fun h0 => ?_, fun hge => ?_, fun ⟨hw, hlt⟩ => ?_, fun ⟨hne, hlt⟩ => ?_⟩
  · simp [verify_dgroup_size, h0]
  · have hne : s.dgroup_size ≠ 0 := by omega
    simp [verify_dgroup_size, hne, hge]
  · have hne : s.dgroup_size ≠ 0 := by omega
    have hnge : ¬(s.dgroup_size ≥ s.dgroup_max) := by omega
    simp [verify_dgroup_size, hne, hnge, hw]
  · have hnge : ¬(s.dgroup_size ≥ s.dgroup_max) := by omega
    have hnw : ¬(s.dgroup_size ≥ s.dgroup_warn) := by omega
    simp [verify_dgroup_size, hne, hnge, hnw]

theorem spec_c2_witness :
    (verify_dgroup_size { initState "production" with dgroup_size := 0xE900 }).errors =
      [.dgroupExceedsLimit 0xE900 0xE000 "production"] ∧
    (verify_dgroup_size { initState "production" with dgroup_size := 0xE900 }).warnings = [] := by
  have h := (spec_c2_holds { initState "production" with dgroup_size := 0xE900 }
      rfl rfl).2.1 (by decide)
  rw [h]
  exact ⟨rfl, rfl⟩

-- ## C9: no operation ever appends an info record

theorem foldl_preserves_info {β : Type} (f : VState → β → VState)
    (h : ∀ st b, (f st b).info = st.info) :
    ∀ (l : List β) (s : VState), (List.foldl f s l).info = s.info := by
  intro l
  induction l with
  | nil => intro s; rfl
  | cons b t ih => intro s; rw [List.foldl_cons, ih, h]

theorem verify_dgroup_size_info (s : VState) : (verify_dgroup_size s).info = s.info := by
  unfold verify_dgroup_size
  split
  · rfl
  · split
    · rfl
    · split <;> rfl

theorem verify_required_symbols_info (s : VState) :
    (verify_required_symbols s).info = s.info := by
  unfold verify_required_symbols
  apply foldl_preserves_info
  intro st b
  rfl

theorem verify_required_segments_info (s : VState) :
    (verify_required_segments s).info = s.info := by
  unfold verify_required_segments
  refine foldl_preserves_info _ (fun st b => ?_) _ s
  rcases h : isSegmentRoot st.segments b.1 with _ | fb
  · simp [h]
  · rcases fb with _ | _
    · rcases hl : lookupTab st.segments b.1 with _ | i <;> simp [h, hl]
    · simp [h]

theorem verify_optional_symbols_info (s : VState) :
    (verify_optional_symbols s).info = s.info := by
  unfold verify_optional_symbols
  apply foldl_preserves_info
  intro st b
  rfl

theorem verify_forbidden_in_overlay_info (s : VState) :
    (verify_forbidden_in_overlay s).info = s.info := by
  unfold verify_forbidden_in_overlay
  refine foldl_preserves_info _ (fun st b => ?_) _ s
  rcases hl : lookupTab st.segments (objSegName b) with _ | i
  · simp [hl]
  · simp only [hl]
    split <;> rfl

theorem verify_dgroup_folding_info (s : VState) :
    (verify_dgroup_folding s).info = s.info := by
  unfold verify_dgroup_folding
  refine foldl_preserves_info _ (fun st b => ?_) _ s
  split <;> rfl

theorem runRules_info (s : VState) : (runRules s).info = s.info := by
  unfold runRules
  rw [verify_dgroup_folding_info, verify_forbidden_in_overlay_info,
    verify_optional_symbols_info, verify_required_segments_info,
    verify_required_symbols_info, verify_dgroup_size_info]

theorem parseText_info (text : String) (s : VState) : (parseText text s).info = s.info := rfl

/-- C9: for every invocation, the info list of the final state is empty:
parsing and all six rules never append an info record, so the verdict
never depends on info records. -/
theorem spec_c9_holds : ∀ (argv : List String) (mapText : Option String)
    (ec : Nat) (st : VState), mainRun argv mapText = (ec, some st) → st.info = [] := by
  intro argv mapText ec st h
  unfold mainRun at h
  split at h
  · exact absurd (congrArg Prod.snd h) (by simp)
  · rcases mapText with _ | text
    · have : ({ initState (buildModeOf argv) with
          errors := (initState (buildModeOf argv)).errors ++ [.mapFileNotFound] } : VState) = st := by
        have := congrArg Prod.snd h
        simpa using this
      rw [← this]
      rfl
    · have : runRules (parseText text (initState (buildModeOf argv))) = st := by
        have := congrArg Prod.snd h
        simpa using this
      rw [← this, runRules_info, parseText_info]
      rfl

theorem spec_c9_witness :
    (runRules (parseText "" (initState "debug"))).info = [] :=
  spec_c9_holds ["verify_map.py", "build/3cpd.map"] (some "") 1
    (runRules (parseText "" (initState "debug"))) (by decide)

-- ## C3: pass iff no errors; exit code mapping

/-- C3: the run passes iff the accumulated error list is empty (warnings
never fail a run): whenever a final state exists the exit code is 0 iff
its error list is empty; a missing file argument or an unreadable map
file exits 1. -/
theorem spec_c3_holds : ∀ (argv : List String) (mapText : Option String),
    (∀ st, (mainRun argv mapText).2 = some st →
      ((mainRun argv mapText).1 = 0 ↔ st.errors = [])) ∧
    (argv.length < 2 → mainRun argv mapText = (1, none)) ∧
    (2 ≤ argv.length → mapText = none →
      (mainRun argv mapText).1 = 1 ∧
      (mainRun argv mapText).2.map VState.errors = some [.mapFileNotFound]) := by
  intro argv mapText
  refine ⟨?_, ?_, ?_⟩
  · intro st hst
    unfold mainRun at hst ⊢
    by_cases hlen : argv.length < 2
    · rw [if_pos hlen] at hst
      exact absurd hst (by simp)
    · rw [if_neg hlen] at hst ⊢
      rcases mapText with _ | text
      · simp only [Option.some.injEq] at hst
        rw [← hst]
        simp [initState]
      · simp only [Option.some.injEq] at hst
        rcases he : (runRules (parseText text (initState (buildModeOf argv)))).errors with _ | ⟨r, rs⟩
        · rw [← hst, he]
          simp [List.isEmpty, he]
        · rw [← hst, he]
          simp [List.isEmpty, he]
  · intro hlen
    unfold mainRun
    rw [if_pos hlen]
  · intro hlen hnone
    subst hnone
    unfold mainRun
    rw [if_neg (by omega)]
    refine ⟨rfl, ?_⟩
    simp [initState]

theorem spec_c3_witness :
    mainRun ["verify_map.py"] none = (1, none) ∧
    (mainRun ["verify_map.py", "build/3cpd.map"] none).1 = 1 ∧
    ((mainRun ["verify_map.py", "build/3cpd.map"] (some "")).1 = 0 ↔
      (runRules (parseText "" (initState "debug"))).errors = []) :=
  ⟨(spec_c3_holds ["verify_map.py"] none).2.1 (by decide),
   ((spec_c3_holds ["verify_map.py", "build/3cpd.map"] none).2.2 (by decide) rfl).1,
   (spec_c3_holds ["verify_map.py", "build/3cpd.map"] (some "")).1
     (runRules (parseText "" (initState "debug"))) (by decide)⟩

-- ## C8: duplicate names during parsing

theorem lookupTab_insertReplace_self {α : Type} (m : List (String × α)) (k : String) (v : α) :
    lookupTab (insertReplace m k v) k = some v := by
  induction m with
  | nil => simp [insertReplace, lookupTab]
  | cons p t ih =>
    by_cases h : p.1 = k
    · simp [insertReplace, h, lookupTab]
    · simp [insertReplace, h, lookupTab, ih]

theorem lookupTab_insertReplace_ne {α : Type} (m : List (String × α)) (k k' : String) (v : α)
    (h : k' ≠ k) : lookupTab (insertReplace m k v) k' = lookupTab m k' := by
  have hkk : ¬(k = k') := fun hh => h hh.symm
  induction m with
  | nil =>
    simp only [insertReplace, lookupTab]
    rw [if_neg hkk]
  | cons p t ih =>
    simp only [insertReplace]
    by_cases hp : p.1 = k
    · rw [if_pos hp]
      have hpk' : ¬(p.1 = k') := by rw [hp]; exact hkk
      simp only [lookupTab]
      rw [if_neg hkk, if_neg hpk']
    · rw [if_neg hp]
      simp only [lookupTab]
      by_cases hp' : p.1 = k'
      · rw [if_pos hp', if_pos hp']
      · rw [if_neg hp', if_neg hp', ih]

theorem lookupTab_matchFold_untouched {α : Type} (n : String) :
    ∀ (ms : List (String × α)) (m : List (String × α)),
      (∀ kv ∈ ms, kv.1 ≠ n) →
      lookupTab (ms.foldl (fun acc kv => insertReplace acc kv.1 kv.2) m) n = lookupTab m n := by
  intro ms
  induction ms with
  | nil => intro m h; rfl
  | cons kv t ih =>
    intro m h
    rw [List.foldl_cons, ih _ (fun kv' hkv' => h kv' (List.mem_cons_of_mem _ hkv')),
      lookupTab_insertReplace_ne m kv.1 n kv.2 (Ne.symm (h kv (List.mem_cons_self _ _)))]

theorem lookupTab_tableOfMatches_last {α : Type} (pre mid post : List (String × α))
    (n : String) (e1 e2 : α) (hpost : ∀ kv ∈ post, kv.1 ≠ n) :
    lookupTab (tableOfMatches (pre ++ (n, e1) :: mid ++ (n, e2) :: post)) n = some e2 := by
  unfold tableOfMatches
  have hsplit : pre ++ (n, e1) :: mid ++ (n, e2) :: post =
      (pre ++ (n, e1) :: mid) ++ (n, e2) :: post := by simp
  rw [hsplit, List.foldl_append, List.foldl_cons,
    lookupTab_matchFold_untouched n post _ hpost]
  exact lookupTab_insertReplace_self _ n e2

/-- C8 (amended): during parsing, when two matches of the scan over the
map text produce the same segment name (or the same symbol name), the
entry from the later match silently replaces the earlier one in the
resulting table, and parsing records no collision warning and no error.
A line that is parseable in isolation need not produce a match: a
preceding match whose whitespace run spans the line break consumes the
start of that line and suppresses its anchored match. -/
theorem spec_c8_holds :
    (∀ (cs : List Char) (pre mid post : List (String × SegInfo)) (n : String) (e1 e2 : SegInfo),
      segMatchSeq cs = pre ++ (n, e1) :: mid ++ (n, e2) :: post →
      (∀ kv ∈ post, kv.1 ≠ n) →
      lookupTab (tableOfMatches (segMatchSeq cs)) n = some e2) ∧
    (∀ (cs : List Char) (pre mid post : List (String × SymInfo)) (n : String) (e1 e2 : SymInfo),
      symMatchSeq cs = pre ++ (n, e1) :: mid ++ (n, e2) :: post →
      (∀ kv ∈ post, kv.1 ≠ n) →
      lookupTab (tableOfMatches (symMatchSeq cs)) n = some e2) ∧
    (∀ (text : String) (s : VState),
      (parseText text s).warnings = s.warnings ∧ (parseText text s).errors = s.errors) :=
  ⟨fun cs pre mid post n e1 e2 h hpost => by
      rw [h]; exact lookupTab_tableOfMatches_last pre mid post n e1 e2 hpost,
   fun cs pre mid post n e1 e2 h hpost => by
      rw [h]; exact lookupTab_tableOfMatches_last pre mid post n e1 e2 hpost,
   fun text s => ⟨rfl, rfl⟩⟩

theorem spec_c8_witness :
    lookupTab (tableOfMatches (segMatchSeq
        "FOO CODE AUTO 0001:0002 000A\nFOO DATA DGROUP 0003:0004 14".data)) "FOO" =
      some ⟨"DATA", "DGROUP", "0003:0004", 20⟩ ∧
    lookupTab (tableOfMatches (symMatchSeq "0001:0010 beta\n0002:0020* beta".data)) "beta" =
      some ⟨"0002", "0020", "0002:0020"⟩ :=
  ⟨spec_c8_holds.1 "FOO CODE AUTO 0001:0002 000A\nFOO DATA DGROUP 0003:0004 14".data
      [] [] [] "FOO" ⟨"CODE", "AUTO", "0001:0002", 10⟩ ⟨"DATA", "DGROUP", "0003:0004", 20⟩
      (by decide) (by simp),
   spec_c8_holds.2.1 "0001:0010 beta\n0002:0020* beta".data
      [] [] [] "beta" ⟨"0001", "0010", "0001:0010"⟩ ⟨"0002", "0020", "0002:0020"⟩
      (by decide) (by simp)⟩

-- Concrete map texts refuting the claim as stated: lines 1 and 3 are
-- each parseable in isolation and define the same name, but the match
-- started at line 2 spans the line break (its whitespace run consumes
-- the newline) and swallows the start of line 3, so line 3 never
-- produces a match and the table keeps the EARLIER entry.
def c8SymText : String := "0001:0010 alpha\n0002:0020 \n0003:0030 alpha"

def c8SegText : String :=
  "FOO CODE AUTO 0001:0002 000A\nBAR DATA DGROUP 0003:0004 \nFOO DATA DGROUP 0005:0006 14"

/-- C8 counterexample: in both texts the first and third lines are
parseable lines (each matching the pattern in isolation) that define
the same name, yet the resulting table holds the entry of the EARLIER
line, not the later one: the match started at line 2 spans the line
break and consumes the start of line 3 (as the symbol name, resp. as
the hex size of the unfinished line 2), so the later definition is
silently skipped instead of replacing the earlier one. -/
theorem spec_c8_counterexample :
    (splitLines c8SymText.data).map symLineParse =
      [some ("alpha", ⟨"0001", "0010", "0001:0010"⟩),
       none,
       some ("alpha", ⟨"0003", "0030", "0003:0030"⟩)] ∧
    symMatchSeq c8SymText.data =
      [("alpha", ⟨"0001", "0010", "0001:0010"⟩),
       ("0003:0030", ⟨"0002", "0020", "0002:0020"⟩)] ∧
    lookupTab (tableOfMatches (symMatchSeq c8SymText.data)) "alpha" =
      some ⟨"0001", "0010", "0001:0010"⟩ ∧
    (splitLines c8SegText.data).map segLineParse =
      [some ("FOO", ⟨"CODE", "AUTO", "0001:0002", 10⟩),
       none,
       some ("FOO", ⟨"DATA", "DGROUP", "0005:0006", 20⟩)] ∧
    segMatchSeq c8SegText.data =
      [("FOO", ⟨"CODE", "AUTO", "0001:0002", 10⟩),
       ("BAR", ⟨"DATA", "DGROUP", "0003:0004", 15⟩)] ∧
    lookupTab (tableOfMatches (segMatchSeq c8SegText.data)) "FOO" =
      some ⟨"CODE", "AUTO", "0001:0002", 10⟩ := by
  decide

-- ## C7: optional symbols probe three spellings, first match wins

-- spec wording: the name with a single trailing separator removed
def dropTrailingSep (s : String) : String :=
  match s.data.reverse with
  | c :: t => if c = '_' then String.mk t.reverse else s
  | [] => s

theorem checkOptionalVariants_none (syms : List (String × SymInfo)) (ovl : List String) :
    ∀ vs : List String, (∀ v ∈ vs, lookupTab syms v = none) →
      checkOptionalVariants syms ovl vs = [] := by
  intro vs
  induction vs with
  | nil => intro h; rfl
  | cons v rest ih =>
    intro h
    have hv : lookupTab syms v = none := h v (List.mem_cons_self _ _)
    simp only [checkOptionalVariants, hv]
    exact ih (fun v' hv' => h v' (List.mem_cons_of_mem _ hv'))

theorem checkOptionalVariants_found (syms : List (String × SymInfo)) (ovl : List String) :
    ∀ (vs : List String) (v : String) (i : SymInfo),
      vs.find? (fun u => (lookupTab syms u).isSome) = some v →
      lookupTab syms v = some i →
      checkOptionalVariants syms ovl vs =
        (if symbolInOverlay ovl i then [.optionalInOverlay v] else []) := by
  intro vs
  induction vs with
  | nil => intro v i hf hi; exact absurd hf (by simp)
  | cons u rest ih =>
    intro v i hf hi
    rcases hu : lookupTab syms u with _ | j
    · have hf' : rest.find? (fun u => (lookupTab syms u).isSome) = some v := by
        rw [List.find?_cons_of_neg] at hf
        · exact hf
        · simp [hu]
      simp only [checkOptionalVariants, hu]
      exact ih v i hf' hi
    · have hv : u = v := by
        rw [List.find?_cons_of_pos] at hf
        · exact (Option.some.injEq _ _).mp hf
        · simp [hu]
      subst hv
      have hij : j = i := by
        rw [hu] at hi
        exact (Option.some.injEq _ _).mp hi
      subst hij
      simp only [checkOptionalVariants, hu]

/-- C7: the optional-symbols rule probes, for each advisory name, exactly
the three spellings literal / trailing separator removed / trailing
separator appended, in that order; the first spelling present in the
symbol table decides; if none is present no record is emitted; if the
first present spelling resolves into overlay exactly one error is
emitted for that name.  For every name of the catalog the rstrip variant
coincides with removing a single trailing separator. -/
theorem spec_c7_holds : ∀ (syms : List (String × SymInfo)) (ovl : List String) (name : String),
    optionalVariants name = [name, rstripUnderscore name, name ++ "_"] ∧
    ((∀ v ∈ optionalVariants name, lookupTab syms v = none) →
      checkOptional syms ovl name = []) ∧
    (∀ v i, (optionalVariants name).find? (fun u => (lookupTab syms u).isSome) = some v →
      lookupTab syms v = some i →
      checkOptional syms ovl name =
        (if symbolInOverlay ovl i then [.optionalInOverlay v] else [])) ∧
    (∀ nm ∈ OPTIONAL_SYMBOLS, optionalVariants nm = [nm, dropTrailingSep nm, nm ++ "_"]) := by
  intro syms ovl name
  refine ⟨rfl, ?_, ?_, ?_⟩
  · intro h
    exact checkOptionalVariants_none syms ovl (optionalVariants name) h
  · intro v i hf hi
    exact checkOptionalVariants_found syms ovl (optionalVariants name) v i hf hi
  · decide

theorem spec_c7_witness :
    checkOptional [("log_info", ⟨"0100", "0000", "0100:0000"⟩)] ["0100"] "log_info_" =
      [.optionalInOverlay "log_info"] ∧
    checkOptional [("log_info", ⟨"0200", "0000", "0200:0000"⟩)] ["0100"] "log_info_" = [] ∧
    checkOptional [] ["0100"] "log_info_" = [] := by
  refine ⟨?_, ?_, ?_⟩
  · have h := ((spec_c7_holds [("log_info", ⟨"0100", "0000", "0100:0000"⟩)] ["0100"]
        "log_info_").2.2.1 "log_info" ⟨"0100", "0000", "0100:0000"⟩ (by decide) (by decide))
    rw [h]
    decide
  · have h := ((spec_c7_holds [("log_info", ⟨"0200", "0000", "0200:0000"⟩)] ["0100"]
        "log_info_").2.2.1 "log_info" ⟨"0200", "0000", "0200:0000"⟩ (by decide) (by decide))
    rw [h]
    decide
  · exact (spec_c7_holds [] ["0100"] "log_info_").2.1 (by decide)

-- ## C1: required symbol groups

def presentAliases (syms : List (String × SymInfo)) (names : List String) : List String :=
  names.filter (fun n => (lookupTab syms n).isSome)

def aliasInOverlay (syms : List (String × SymInfo)) (ovl : List String) (n : String) : Bool :=
  match lookupTab syms n with
  | some i => symbolInOverlay ovl i
  | none => false

/-- Amended reading of the required-symbol-groups rule, phrased over the
present aliases of a group: no present alias gives the no-symbol-found
error; present aliases all in overlay give the found-but-in-overlay
error naming the last present alias; a present alias outside overlay
makes the group pass. -/
def requiredGroupAmended (syms : List (String × SymInfo)) (ovl : List String)
    (gname : String) (names : List String) : List VRecord :=
  if hne : presentAliases syms names = [] then [.requiredNoSymbolFound gname names]
  else if (presentAliases syms names).all (aliasInOverlay syms ovl) then
    [.requiredFoundInOverlay gname ((presentAliases syms names).getLast hne)]
  else []

theorem presentAliases_nil_iff (syms : List (String × SymInfo)) (names : List String) :
    presentAliases syms names = [] ↔ ∀ m ∈ names, lookupTab syms m = none := by
  unfold presentAliases
  rw [List.filter_eq_nil_iff]
  constructor
  · intro h m hm
    have hh := h m hm
    rcases he : lookupTab syms m with _ | i
    · rfl
    · rw [he] at hh
      simp at hh
  · intro h m hm
    simp [h m hm]

theorem scanRequiredGroup_no_present (syms : List (String × SymInfo)) (ovl : List String) :
    ∀ names : List String, (∀ m ∈ names, lookupTab syms m = none) →
      ∀ fa fs, scanRequiredGroup syms ovl names fa fs = (fa, false, fs) := by
  intro names
  induction names with
  | nil => intro h fa fs; rfl
  | cons n rest ih =>
    intro h fa fs
    have hn : lookupTab syms n = none := h n (List.mem_cons_self _ _)
    simp only [scanRequiredGroup, hn]
    exact ih (fun m hm => h m (List.mem_cons_of_mem _ hm)) fa fs

theorem scanRequiredGroup_all_overlay (syms : List (String × SymInfo)) (ovl : List String) :
    ∀ names : List String,
      (∀ m ∈ names, ∀ i, lookupTab syms m = some i → symbolInOverlay ovl i = true) →
      ∀ hne : presentAliases syms names ≠ [],
      ∀ fa fs, scanRequiredGroup syms ovl names fa fs =
        (true, false, some ((presentAliases syms names).getLast hne)) := by
  intro names
  induction names with
  | nil => intro _ hne; exact absurd rfl hne
  | cons n rest ih =>
    intro hall hne fa fs
    rcases hn : lookupTab syms n with _ | i
    · have hpres : presentAliases syms (n :: rest) = presentAliases syms rest := by
        simp [presentAliases, List.filter_cons, hn]
      have hne' : presentAliases syms rest ≠ [] := by
        rw [← hpres]; exact hne
      simp only [scanRequiredGroup, hn]
      rw [ih (fun m hm => hall m (List.mem_cons_of_mem _ hm)) hne' fa fs]
      rw [List.getLast_congr hne' hne hpres.symm]
    · have hov : symbolInOverlay ovl i = true := hall n (List.mem_cons_self _ _) i hn
      have hpres : presentAliases syms (n :: rest) = n :: presentAliases syms rest := by
        simp [presentAliases, List.filter_cons, hn]
      simp only [scanRequiredGroup, hn, hov, if_pos]
      rcases hrest : presentAliases syms rest with _ | ⟨p, ps⟩
      · have hnone : ∀ m ∈ rest, lookupTab syms m = none :=
          (presentAliases_nil_iff syms rest).mp hrest
        rw [scanRequiredGroup_no_present syms ovl rest hnone true (some n)]
        have hsingle : presentAliases syms (n :: rest) = [n] := by rw [hpres, hrest]
        rw [List.getLast_congr hne (by simp) hsingle]
        rfl
      · have hne' : presentAliases syms rest ≠ [] := by rw [hrest]; simp
        rw [ih (fun m hm => hall m (List.mem_cons_of_mem _ hm)) hne' true (some n)]
        have hcc : presentAliases syms (n :: rest) = n :: p :: ps := by rw [hpres, hrest]
        rw [List.getLast_congr hne (by simp) hcc, List.getLast_cons_cons,
          List.getLast_congr hne' (by simp) hrest]

theorem scanRequiredGroup_exists_root (syms : List (String × SymInfo)) (ovl : List String) :
    ∀ names : List String,
      (∃ m ∈ names, ∃ i, lookupTab syms m = some i ∧ symbolInOverlay ovl i = false) →
      ∀ fa fs, ∃ fs', scanRequiredGroup syms ovl names fa fs = (true, true, fs') := by
  intro names
  induction names with
  | nil => intro h; exact absurd h (by simp)
  | cons n rest ih =>
    intro h fa fs
    rcases h with ⟨m, hm, i, hi, hov⟩
    rcases List.mem_cons.mp hm with heq | hmrest
    · subst heq
      simp only [scanRequiredGroup, hi, hov]
      exact ⟨some m, by simp⟩
    · rcases hn : lookupTab syms n with _ | j
      · simp only [scanRequiredGroup, hn]
        exact ih ⟨m, hmrest, i, hi, hov⟩ fa fs
      · rcases hovj : symbolInOverlay ovl j with _ | _
        · simp only [scanRequiredGroup, hn, hovj]
          exact ⟨some n, by simp⟩
        · simp only [scanRequiredGroup, hn, hovj, if_pos]
          exact ih ⟨m, hmrest, i, hi, hov⟩ true (some n)

/-- C1 (amended): for every catalog group and symbol table, the alias
scan stops early only at an alias that is present and outside overlay
(the group passes); an alias present but in overlay does not stop the
scan, so later aliases are tried as a fallback.  The group passes iff
some alias is present outside overlay; it fails with no-symbol-found iff
no alias is present; and when aliases are present but all present ones
lie in overlay it fails with one found-but-in-overlay error naming the
last present alias. -/
theorem spec_c1_holds : ∀ (syms : List (String × SymInfo)) (ovl : List String)
    (gname : String) (names : List String),
    checkRequiredGroup syms ovl gname names = requiredGroupAmended syms ovl gname names := by
  intro syms ovl gname names
  by_cases hne : presentAliases syms names = []
  · have hnone : ∀ m ∈ names, lookupTab syms m = none :=
      (presentAliases_nil_iff syms names).mp hne
    unfold checkRequiredGroup requiredGroupAmended
    rw [scanRequiredGroup_no_present syms ovl names hnone false none, dif_pos hne]
  · by_cases hall : (presentAliases syms names).all (aliasInOverlay syms ovl) = true
    · have hallm : ∀ m ∈ names, ∀ i, lookupTab syms m = some i →
          symbolInOverlay ovl i = true := by
        intro m hm i hi
        have hmem : m ∈ presentAliases syms names := by
          simp [presentAliases, List.mem_filter, hm, hi]
        have := List.all_eq_true.mp hall m hmem
        simpa [aliasInOverlay, hi] using this
      unfold checkRequiredGroup requiredGroupAmended
      rw [scanRequiredGroup_all_overlay syms ovl names hallm hne false none,
        dif_neg hne, if_pos hall]
      rfl
    · have hex : ∃ m ∈ names, ∃ i, lookupTab syms m = some i ∧
          symbolInOverlay ovl i = false := by
        have hnot : ¬(∀ x ∈ presentAliases syms names, aliasInOverlay syms ovl x = true) :=
          fun hforall => hall (List.all_eq_true.mpr hforall)
        push_neg at hnot
        obtain ⟨x, hxmem, hxov⟩ := hnot
        have hx : x ∈ names ∧ (lookupTab syms x).isSome = true := by
          simpa [presentAliases, List.mem_filter] using hxmem
        obtain ⟨i, hi⟩ := Option.isSome_iff_exists.mp hx.2
        refine ⟨x, hx.1, i, hi, ?_⟩
        have : aliasInOverlay syms ovl x = symbolInOverlay ovl i := by
          simp [aliasInOverlay, hi]
        rw [this] at hxov
        exact Bool.not_eq_true _ |>.mp hxov
      obtain ⟨fs', hscan⟩ := scanRequiredGroup_exists_root syms ovl names hex false none
      unfold checkRequiredGroup requiredGroupAmended
      rw [hscan, dif_neg hne, if_neg hall]

-- Concrete input refuting the claim as stated: the first present alias
-- of the packet_api group lies in overlay, a later alias is present
-- outside overlay, and every other group resolves outside overlay.
def c1Syms : List (String × SymInfo) :=
  [("packet_driver_isr", ⟨"0100", "0000", "0100:0000"⟩),
   ("_packet_driver_isr", ⟨"0200", "0000", "0200:0000"⟩),
   ("multiplex_handler_", ⟨"0200", "0010", "0200:0010"⟩),
   ("_pci_shim_isr", ⟨"0200", "0020", "0200:0020"⟩),
   ("nic_irq_handler", ⟨"0200", "0030", "0200:0030"⟩),
   ("install_packet_api_vector", ⟨"0200", "0040", "0200:0040"⟩)]

def c1State : VState :=
  { initState "debug" with symbols := c1Syms, overlay_segments := ["0100"] }

/-- C1 counterexample: in the packet_api group the first alias present
in the symbol table is packet_driver_isr and it lies in overlay, yet the
rule emits no error at all — the scan falls through to the later alias
_packet_driver_isr, which is present outside overlay, so the group
passes, contradicting the claim that the group fails with found-but-in-
overlay and that later aliases are never tried. -/
theorem spec_c1_counterexample :
    (REQUIRED_SYMBOLS.find? (fun p => p.1 == "packet_api")).map Prod.snd =
      some ["packet_driver_isr", "_packet_driver_isr", "packet_api_entry"] ∧
    (["packet_driver_isr", "_packet_driver_isr", "packet_api_entry"].find?
        (fun n => (lookupTab c1Syms n).isSome)) = some "packet_driver_isr" ∧
    aliasInOverlay c1Syms ["0100"] "packet_driver_isr" = true ∧
    (lookupTab c1Syms "_packet_driver_isr").isSome = true ∧
    aliasInOverlay c1Syms ["0100"] "_packet_driver_isr" = false ∧
    checkRequiredGroup c1Syms ["0100"] "packet_api"
      ["packet_driver_isr", "_packet_driver_isr", "packet_api_entry"] = [] ∧
    (verify_required_symbols c1State).errors = [] := by
  decide
